import Mathlib

/-!
Verification development for the retrieval-augmented answering pipeline of
this repository.  The backend algorithm file (`services/rag_service.py`) is
not present in the source tree; only its documentation
(`RAG_OPTIMIZATION.md`, `QUICK_REFERENCE.md`) and its frontend callers are.
The pipeline components (chunker, classifier, scorer, selector, assembler,
cache) are therefore modelled from the specification, faithful to its words,
while the frontend index-build path is embedded directly from
`components/LoadingScreen.tsx` (the `RAGComponent.handleIndex` /
`handleQuery` code).

Scores are modelled as exact rationals; embeddings are abstracted into the
cosine-distance values the external embedding capability returns.
-/

namespace RagModel

/-! ## Words and tokenisation

The spec's `words(·)` is the case-insensitive set of words of a text:
maximal runs of alphanumeric characters, lowercased, de-duplicated. -/

/-- Maximal alphanumeric runs of a character list, lowercased.
The second argument accumulates the current (reversed) run. -/
def tokenizeAux : List Char → List Char → List String
  | [], acc => if acc = [] then [] else [String.mk acc.reverse]
  | c :: cs, acc =>
    if c.isAlphanum then tokenizeAux cs (c.toLower :: acc)
    else if acc = [] then tokenizeAux cs []
    else String.mk acc.reverse :: tokenizeAux cs []

/-- Case-insensitive word set of a text, as a duplicate-free list in order of
first occurrence. -/
def wordsOf (s : String) : List String := (tokenizeAux s.data []).dedup

theorem wordsOf_nodup (s : String) : (wordsOf s).Nodup := List.nodup_dedup _

/-! ## Data model (spec §3)

Modelled from the spec: `source_type ∈ {transcript_window, asr_segment,
summary_primary, summary_secondary}`; a chunk carries text, provenance, a
technical flag and optional timestamps.  The embedding vector is abstracted:
the external similarity capability is passed in as a cosine-distance
function wherever it is needed. -/

inductive SourceType where
  | transcript_window
  | asr_segment
  | summary_primary
  | summary_secondary
  deriving DecidableEq

/-- Printable name of a source type, as it appears on the wire. -/
def sourceTypeName : SourceType → String
  | .transcript_window => "transcript_window"
  | .asr_segment => "asr_segment"
  | .summary_primary => "summary_primary"
  | .summary_secondary => "summary_secondary"

/-- The scorer's boost test: the source type's name starts with "summary".
With the four fixed source types this is exactly the two summary cases. -/
def isSummarySource : SourceType → Bool
  | .summary_primary => true
  | .summary_secondary => true
  | _ => false

theorem isSummarySource_via_name (st : SourceType) :
    isSummarySource st = "summary".data.isPrefixOf (sourceTypeName st).data := by
  cases st <;> decide

structure Chunk where
  id : String
  text : String
  source_type : SourceType
  is_technical : Bool
  start_time : Option ℚ := none
  end_time : Option ℚ := none
  deriving DecidableEq

structure ScoredChunk where
  chunk : Chunk
  semantic_score : ℚ
  keyword_score : ℚ
  combined_score : ℚ
  deriving DecidableEq

/-! ## Query Classifier (spec §4.3)

Modelled from the spec: true iff the lowercased question contains one of a
fixed trigger set as a whole word (word-boundary match, not substring). -/

/-- Modelled from the spec: the classifier's fixed trigger set. -/
def triggerSet : List String := ["how", "why", "explain", "calculate", "derive", "solve"]

/-- Modelled from the spec: `classify(question_text)`, the technical-question
flag.  `wordsOf` lowercases and splits at word boundaries. -/
def classify (q : String) : Bool :=
  triggerSet.any (fun t => decide (t ∈ wordsOf q))

/-! ## Scorer (spec §4.4)

Modelled from the spec, mirroring the pseudocode line by line:

semantic  = clamp(1 - cosine_distance, 0, 1)
keyword   = overlap count / max(1, question word count)
combined  = technical ? 0.3 kw + 0.7 sem : 0.4 kw + 0.6 sem
then `*= 1.15` for summary-sourced chunks and `*= 1.10` when a technical
question meets a technical chunk. -/

def clamp01 (x : ℚ) : ℚ := max 0 (min 1 x)

/-- Modelled from the spec: per-chunk scoring given the classifier's flag,
the question text and the cosine distance between the question embedding and
the chunk embedding (the latter supplied by the external embedding
capability). -/
def scoreChunk (technical : Bool) (q : String) (c : Chunk) (cosDist : ℚ) : ScoredChunk :=
  let semantic := clamp01 (1 - cosDist)
  let keyword : ℚ :=
    (((wordsOf q).filter (fun w => decide (w ∈ wordsOf c.text))).length : ℚ) /
      ((max 1 (wordsOf q).length : ℕ) : ℚ)
  let combined := if technical then 0.3 * keyword + 0.7 * semantic
                  else 0.4 * keyword + 0.6 * semantic
  let combined := if isSummarySource c.source_type then combined * 1.15 else combined
  let combined := if technical && c.is_technical then combined * 1.1 else combined
  ⟨c, semantic, keyword, combined⟩

/-- The total multiplicative effect of the two boosts on the pre-boost
combined score. -/
def boostFactor (technical : Bool) (c : Chunk) : ℚ :=
  (if isSummarySource c.source_type then (1.15 : ℚ) else 1) *
    (if technical && c.is_technical then (1.1 : ℚ) else 1)

/-- The keyword score written the way the spec writes it: cardinality of the
set intersection of the two word sets over `max 1 |words(question)|`. -/
def keywordScoreSpec (q t : String) : ℚ :=
  (((wordsOf q).toFinset ∩ (wordsOf t).toFinset).card : ℚ) /
    ((max 1 (wordsOf q).toFinset.card : ℕ) : ℚ)

/-! ## Sorting (spec §4.2 and §4.5)

Both the index search and the selector sort by a rational key, descending,
stable on ties (ties keep original order).  A stable insertion sort: an
element is placed in front of an already-placed one only when its key is at
least as large; since later-inserted elements are earlier in the original
list, equal keys keep original order. -/

def insDesc (key : α → ℚ) (x : α) : List α → List α
  | [] => [x]
  | y :: ys => if key y ≤ key x then x :: y :: ys else y :: insDesc key x ys

/-- Stable sort by descending `key`. -/
def sortByDesc (key : α → ℚ) (l : List α) : List α := l.foldr (insDesc key) []

/-! ## Index Store search (spec §4.2)

Modelled from the spec: rank by descending similarity (`1 - cosine
distance`), stable, take `top_k`.  The index is the per-session chunk list;
the distance function stands for the external embedding capability. -/

def searchIndex (dist : Chunk → ℚ) (chunks : List Chunk) (k : ℕ) : List Chunk :=
  (sortByDesc (fun c => 1 - dist c) chunks).take k

/-! ## Selector (spec §4.5)

Modelled from the spec: walk the candidates sorted by descending combined
score, greedily accepting while the source-type bucket (summary-like versus
transcript/segment-like) is below its cap and the total is below the
target. -/

def selectGo : List ScoredChunk → ℕ → ℕ → ℕ → List ScoredChunk
  | [], _, _, _ => []
  | c :: cs, nSum, nTr, total =>
    if 5 ≤ total then []
    else if isSummarySource c.chunk.source_type then
      if nSum < 2 then c :: selectGo cs (nSum + 1) nTr (total + 1)
      else selectGo cs nSum nTr total
    else
      if nTr < 4 then c :: selectGo cs nSum (nTr + 1) (total + 1)
      else selectGo cs nSum nTr total

/-- Modelled from the spec: `select(scored_candidates, target=5,
caps={summary: 2, transcript_like: 4})`. -/
def selectChunks (cands : List ScoredChunk) : List ScoredChunk :=
  selectGo (sortByDesc (fun s => s.combined_score) cands) 0 0 0

/-- Number of summary-sourced chunks in a selection. -/
def countSummary (l : List ScoredChunk) : ℕ :=
  l.countP (fun s => isSummarySource s.chunk.source_type)

/-- Number of transcript/segment-sourced chunks in a selection. -/
def countTranscript (l : List ScoredChunk) : ℕ :=
  l.countP (fun s => !isSummarySource s.chunk.source_type)

/-! ## Context Assembler (spec §4.6) and Answer Synthesizer request -/

structure SynthRequest where
  question : String
  technical : Bool
  overview : List String
  detail : List (String × Option ℚ × Option ℚ)
  deriving DecidableEq

/-- Modelled from the spec: partition the selection into the overview tier
(summary-sourced) and the detail tier (transcript/segment-sourced, with
their time ranges), preserving selection order within each tier. -/
def assemble (sel : List ScoredChunk) : List String × List (String × Option ℚ × Option ℚ) :=
  (((sel.filter (fun s => isSummarySource s.chunk.source_type)).map (fun s => s.chunk.text)),
   ((sel.filter (fun s => !isSummarySource s.chunk.source_type)).map
      (fun s => (s.chunk.text, s.chunk.start_time, s.chunk.end_time))))

/-! ## Answers and the query pipeline (spec §3, §4.4, §6, §7) -/

structure SupportingChunk where
  chunk_id : String
  score : ℚ
  preview : String
  source_type : SourceType
  start_time : Option ℚ
  end_time : Option ℚ
  deriving DecidableEq

structure Answer where
  text : String
  supporting_chunks : List SupportingChunk
  elapsed : ℚ
  from_cache : Bool
  deriving DecidableEq

inductive RagError where
  | validation
  | notIndexed
  deriving DecidableEq

/-- Session registry of the Index Store: chunk lists keyed by session id. -/
def lookupSession : List (String × List Chunk) → String → Option (List Chunk)
  | [], _ => none
  | (sid, chunks) :: rest, s => if sid = s then some chunks else lookupSession rest s

/-- Modelled from the spec: candidate admission, the union of the
embedding-based top-10 and every chunk whose keyword score reaches the 0.15
threshold. -/
def admitCandidates (dist : Chunk → ℚ) (q : String) (chunks : List Chunk) : List Chunk :=
  let top := searchIndex dist chunks 10
  top ++ chunks.filter (fun c =>
    decide ((0.15 : ℚ) ≤ (scoreChunk (classify q) q c (dist c)).keyword_score) &&
      !(top.map (fun t => t.id)).contains c.id)

/-- View of a selected chunk in the answer, with a truncated text preview. -/
def toSupporting (s : ScoredChunk) : SupportingChunk :=
  ⟨s.chunk.id, s.combined_score, s.chunk.text.take 200, s.chunk.source_type,
    s.chunk.start_time, s.chunk.end_time⟩

/-- Modelled from the spec: the full query path.  Validation, session
lookup, classification, retrieval with keyword admission, scoring,
selection, assembly and the synthesis request sent to the external
generator, returning the Answer and the request that was made. -/
def ragQuery (store : List (String × List Chunk)) (dist : Chunk → ℚ)
    (synth : SynthRequest → String) (sid q : String) :
    Except RagError (Answer × SynthRequest) :=
  if q.data.all (fun c => c.isWhitespace) then .error .validation
  else
    match lookupSession store sid with
    | none => .error .notIndexed
    | some chunks =>
      let technical := classify q
      let admitted := admitCandidates dist q chunks
      let scored := admitted.map (fun c => scoreChunk technical q c (dist c))
      let sel := selectChunks scored
      let tiers := assemble sel
      let req : SynthRequest := ⟨q, technical, tiers.1, tiers.2⟩
      let ans : Answer := ⟨synth req, sel.map toSupporting, 0, false⟩
      .ok (ans, req)

/-! ## Answer Cache (spec §4.8)

Modelled from the spec: keyed by `(session_id, normalize(question))`;
a hit returns the stored Answer marked `from_cache := true` without
invoking the compute function; a miss invokes it once and stores the
result.  `pipelineCalls` counts invocations of the retrieval pipeline. -/

/-- Modelled from the spec: `normalize` = trim, lowercase, collapse
whitespace. -/
def normalizeQuestion (s : String) : String :=
  String.intercalate " " ((s.toLower.split (fun c => c.isWhitespace)).filter (fun w => w ≠ ""))

def findEntry : List ((String × String) × Answer) → String × String → Option Answer
  | [], _ => none
  | (k, a) :: rest, key => if k = key then some a else findEntry rest key

structure CacheState where
  entries : List ((String × String) × Answer)
  pipelineCalls : ℕ

/-- Modelled from the spec: `get_or_compute(session_id, question_text,
compute_fn)`. -/
def getOrCompute (st : CacheState) (sid q : String) (computeFn : Unit → Answer) :
    Answer × CacheState :=
  match findEntry st.entries (sid, normalizeQuestion q) with
  | some a => ({ a with from_cache := true }, st)
  | none =>
    let a := { computeFn () with from_cache := false }
    (a, ⟨((sid, normalizeQuestion q), a) :: st.entries, st.pipelineCalls + 1⟩)

/-! ## Chunker (spec §4.1)

Modelled from the spec: split on terminal punctuation into sentences (a run
with no terminal punctuation is one sentence; pieces with no non-whitespace
content are not sentences), then slide a window of 7 sentences advancing by
`step = window_size - overlap = 4`, the last window truncated to the
remaining sentences. -/

/-- Sentence splitting on terminal punctuation.  The accumulator holds the
current sentence in reverse; a piece counts as a sentence only if it has a
non-whitespace character. -/
def splitSentencesAux : List Char → List Char → List String
  | [], acc =>
    if acc.any (fun c => !c.isWhitespace) then [String.mk acc.reverse] else []
  | c :: cs, acc =>
    if c = '.' ∨ c = '!' ∨ c = '?' then
      if acc.any (fun ch => !ch.isWhitespace) then
        String.mk (c :: acc).reverse :: splitSentencesAux cs []
      else splitSentencesAux cs []
    else splitSentencesAux cs (c :: acc)

def splitSentences (t : String) : List String := splitSentencesAux t.data []

/-- Sliding-window worker.  The window logic: no window for an empty list,
one window when at most 7 sentences remain, otherwise a full 7-sentence
window followed by the windows of the list less its first 4 sentences.
`fuel` only bounds the recursion depth; every call site supplies at least
the list length, which step 4 can never exhaust. -/
def chunkGo (fuel : ℕ) (l : List α) : List (List α) :=
  match fuel with
  | 0 => if l.isEmpty then [] else [l]
  | fuel + 1 =>
    if l.isEmpty then []
    else if l.length ≤ 7 then [l]
    else l.take 7 :: chunkGo fuel (l.drop 4)

/-- Sliding windows of 7 sentences advancing by `step = 7 - 3 = 4`; the last
window is truncated to the remaining sentences, and an empty document yields
no windows. -/
def chunkWindows (l : List α) : List (List α) := chunkGo l.length l

/-- Modelled from the spec: `chunk(text, window_size=7, overlap=3)` over a
document, at sentence granularity. -/
def chunkText (t : String) : List (List String) := chunkWindows (splitSentences t)

end RagModel

namespace Frontend

/-! ## Frontend index-build path

Embedded from `components/LoadingScreen.tsx` (`RAGComponent`): the
`handleIndex` flow — try to generate summaries, fall back to nulls on any
summary failure, decide whether to send segments, send the index-build
request, and update the component state from the outcome. -/

/-- A transcript segment as the frontend holds it (`{start, end, text}`).
The `end` field is written `end_` because `end` is reserved here. -/
structure Segment where
  start : Option ℚ
  end_ : Option ℚ
  text : String
  deriving DecidableEq

/-- The JSON body of `POST /api/llm/rag/index` as `handleIndex` builds it.
`segments = none` models the `undefined` that JSON.stringify omits; a `none`
summary models the `null` that is serialised as a present key. -/
structure RAGIndexBody where
  transcript_text : String
  segments : Option (List Segment)
  summary_en : Option String
  summary_mm : Option String
  deriving DecidableEq

/-- The set of keys JSON.stringify produces for the body: `undefined`
segments are omitted, `null` summaries are kept. -/
def bodyKeys (b : RAGIndexBody) : List String :=
  ["transcript_text"] ++
    (match b.segments with | some _ => ["segments"] | none => []) ++
    ["summary_en", "summary_mm"]

/-- `segments && segments.length > 0 && segments.some(seg => seg.start !==
null || seg.end !== null)` from `handleIndex`. -/
def hasValidTimestamps : Option (List Segment) → Bool
  | none => false
  | some l => !l.isEmpty && l.any (fun s => s.start.isSome || s.end_.isSome)

/-- Outcome of the summary-generation request: a 2xx response carrying the
two (possibly null) summaries, a non-ok response, or a thrown error. -/
inductive SummaryOutcome where
  | ok (en mm : Option String)
  | httpError
  | threw
  deriving DecidableEq

/-- Outcome of the index request: success, a non-ok response whose detail
becomes the thrown message, or a network throw. -/
inductive IndexOutcome where
  | ok
  | httpError (detail : String)
  | threw (msg : String)
  deriving DecidableEq

/-- The component state touched by `handleIndex`. -/
structure RAGState where
  indexing : Bool
  indexed : Bool
  error : String
  deriving DecidableEq

/-- Embedded from `RAGComponent.handleIndex`: clear the error, try the
summary request (any failure degrades to null summaries and is only
logged), build the index request body, send it, and set `indexed` on
success or `error` on failure; `indexing` is reset in the `finally`.
Returns the final state and the request body that was sent. -/
def handleIndex (transcriptText : String) (segments : Option (List Segment))
    (sumOut : SummaryOutcome) (idxOut : IndexOutcome) (st : RAGState) :
    RAGState × RAGIndexBody :=
  let st1 : RAGState := { st with indexing := true, error := "" }
  let summaries : Option String × Option String :=
    match sumOut with
    | .ok en mm => (en, mm)
    | .httpError => (none, none)
    | .threw => (none, none)
  let body : RAGIndexBody :=
    ⟨transcriptText, if hasValidTimestamps segments then segments else none,
      summaries.1, summaries.2⟩
  let st2 : RAGState :=
    match idxOut with
    | .ok => { st1 with indexed := true }
    | .httpError d => { st1 with error := if d = "" then "Index failed" else d }
    | .threw m => { st1 with error := if m = "" then "Unknown error" else m }
  ({ st2 with indexing := false }, body)

end Frontend

namespace RagModel

/-! ## Helper lemmas -/

theorem keyword_count_eq (q t : String) :
    ((wordsOf q).filter (fun w => decide (w ∈ wordsOf t))).length
      = ((wordsOf q).toFinset ∩ (wordsOf t).toFinset).card := by
  rw [← List.toFinset_card_of_nodup ((wordsOf_nodup q).filter _)]
  congr 1
  ext w
  simp

theorem keyword_den_eq (q : String) :
    max 1 (wordsOf q).length = max 1 (wordsOf q).toFinset.card := by
  rw [List.toFinset_card_of_nodup (wordsOf_nodup q)]

/-- C1: for every candidate chunk, given the question's word set, the
question embedding (abstracted into the cosine distance `d`) and the
classifier's technical flag, the Scorer computes
`semantic_score = clamp(1 - d, 0, 1)`,
`keyword_score = |words(question) ∩ words(chunk.text)| / max(1, |words(question)|)`
(case-insensitive set overlap), and the combined score is
`0.3*keyword + 0.7*semantic` for technical questions and
`0.4*keyword + 0.6*semantic` otherwise, with the boosts applied only
afterwards (the final score is the boost factor times that pre-boost
combination). -/
theorem scorer_formulas (technical : Bool) (q : String) (c : Chunk) (d : ℚ) :
    (scoreChunk technical q c d).semantic_score = max 0 (min 1 (1 - d))
  ∧ (scoreChunk technical q c d).keyword_score = keywordScoreSpec q c.text
  ∧ (scoreChunk technical q c d).combined_score =
      boostFactor technical c *
        (if technical then
            0.3 * (scoreChunk technical q c d).keyword_score
              + 0.7 * (scoreChunk technical q c d).semantic_score
          else
            0.4 * (scoreChunk technical q c d).keyword_score
              + 0.6 * (scoreChunk technical q c d).semantic_score) := by
  refine ⟨rfl, ?_, ?_⟩
  · simp only [scoreChunk, keywordScoreSpec, keyword_count_eq, keyword_den_eq]
  · simp only [scoreChunk, boostFactor]
    cases technical <;>
      cases hs : isSummarySource c.source_type <;>
        cases ht : c.is_technical <;>
          simp [hs, ht] <;> ring

/-- C5: the classifier returns true exactly when the lowercased question
contains, as a whole word, one of the six triggers, and in particular
classifies "How do you derive the formula?" as technical. -/
theorem classify_trigger_spec (q : String) :
    (classify q = true ↔ ∃ t ∈ triggerSet, t ∈ wordsOf q)
  ∧ classify "How do you derive the formula?" = true := by
  constructor
  · simp [classify, List.any_eq_true]
  · decide

/-- C7: asking the same question twice against an unmodified index returns,
on the second call, an Answer identical to the first except marked
`from_cache = true`, with the identical ordered list of supporting chunks,
and without invoking the retrieval pipeline again. -/
theorem cache_idempotent (st : CacheState) (sid q : String) (f : Unit → Answer) :
    (getOrCompute (getOrCompute st sid q f).2 sid q f).1
        = { (getOrCompute st sid q f).1 with from_cache := true }
  ∧ (getOrCompute (getOrCompute st sid q f).2 sid q f).1.supporting_chunks
        = (getOrCompute st sid q f).1.supporting_chunks
  ∧ (getOrCompute (getOrCompute st sid q f).2 sid q f).2.pipelineCalls
        = (getOrCompute st sid q f).2.pipelineCalls := by
  cases hfind : findEntry st.entries (sid, normalizeQuestion q) with
  | some a => simp [getOrCompute, hfind]
  | none => simp [getOrCompute, hfind, findEntry]

end RagModel

namespace RagModel

theorem countSummary_cons (c : ScoredChunk) (l : List ScoredChunk) :
    countSummary (c :: l)
      = countSummary l + (if isSummarySource c.chunk.source_type then 1 else 0) := by
  simp [countSummary, List.countP_cons]

theorem countTranscript_cons (c : ScoredChunk) (l : List ScoredChunk) :
    countTranscript (c :: l)
      = countTranscript l + (if isSummarySource c.chunk.source_type then 0 else 1) := by
  by_cases h : isSummarySource c.chunk.source_type <;>
    simp [countTranscript, List.countP_cons, h]

theorem selectGo_summary_le (cs : List ScoredChunk) (s t tot : ℕ) (hs : s ≤ 2) :
    s + countSummary (selectGo cs s t tot) ≤ 2 := by
  induction cs generalizing s t tot with
  | nil => simpa [selectGo, countSummary] using hs
  | cons c cs ih =>
    rw [selectGo]
    by_cases h5 : 5 ≤ tot
    · simpa [h5, countSummary] using hs
    · by_cases hsum : isSummarySource c.chunk.source_type
      · by_cases hcap : s < 2
        · have h := ih (s + 1) t (tot + 1) (by omega)
          simp [h5, hsum, hcap, countSummary_cons]
          omega
        · simpa [h5, hsum, hcap] using ih s t tot hs
      · by_cases hcap : t < 4
        · have h := ih s (t + 1) (tot + 1) hs
          simp [h5, hsum, hcap, countSummary_cons]
          omega
        · simpa [h5, hsum, hcap] using ih s t tot hs

theorem selectGo_transcript_le (cs : List ScoredChunk) (s t tot : ℕ) (ht : t ≤ 4) :
    t + countTranscript (selectGo cs s t tot) ≤ 4 := by
  induction cs generalizing s t tot with
  | nil => simpa [selectGo, countTranscript] using ht
  | cons c cs ih =>
    rw [selectGo]
    by_cases h5 : 5 ≤ tot
    · simpa [h5, countTranscript] using ht
    · by_cases hsum : isSummarySource c.chunk.source_type
      · by_cases hcap : s < 2
        · have h := ih (s + 1) t (tot + 1) ht
          simp [h5, hsum, hcap, countTranscript_cons]
          omega
        · simpa [h5, hsum, hcap] using ih s t tot ht
      · by_cases hcap : t < 4
        · have h := ih s (t + 1) (tot + 1) (by omega)
          simp [h5, hsum, hcap, countTranscript_cons]
          omega
        · simpa [h5, hsum, hcap] using ih s t tot ht

theorem selectGo_length_le (cs : List ScoredChunk) (s t tot : ℕ) (htot : tot ≤ 5) :
    tot + (selectGo cs s t tot).length ≤ 5 := by
  induction cs generalizing s t tot with
  | nil => simpa [selectGo] using htot
  | cons c cs ih =>
    rw [selectGo]
    by_cases h5 : 5 ≤ tot
    · simpa [h5] using htot
    · by_cases hsum : isSummarySource c.chunk.source_type
      · by_cases hcap : s < 2
        · have h := ih (s + 1) t (tot + 1) (by omega)
          simp [h5, hsum, hcap]
          omega
        · simpa [h5, hsum, hcap] using ih s t tot htot
      · by_cases hcap : t < 4
        · have h := ih s (t + 1) (tot + 1) (by omega)
          simp [h5, hsum, hcap]
          omega
        · simpa [h5, hsum, hcap] using ih s t tot htot

/-- C2: for every input list of scored candidates, the Selector's output
contains at most 2 summary-sourced chunks, at most 4 transcript/segment-
sourced chunks, and at most 5 chunks in total — in every case, with no
hypothesis on how many candidates exist. -/
theorem selector_caps (cands : List ScoredChunk) :
    countSummary (selectChunks cands) ≤ 2
  ∧ countTranscript (selectChunks cands) ≤ 4
  ∧ (selectChunks cands).length ≤ 5 := by
  refine ⟨?_, ?_, ?_⟩
  · simpa using selectGo_summary_le (sortByDesc (fun s => s.combined_score) cands) 0 0 0 (by omega)
  · simpa using selectGo_transcript_le (sortByDesc (fun s => s.combined_score) cands) 0 0 0 (by omega)
  · simpa using selectGo_length_le (sortByDesc (fun s => s.combined_score) cands) 0 0 0 (by omega)

end RagModel
namespace RagModel

/-! ## Chunker lemmas -/

theorem chunkGo_nil (fuel : ℕ) : chunkGo fuel ([] : List α) = [] := by
  cases fuel <;> simp [chunkGo]

theorem chunkGo_small (fuel : ℕ) (l : List α) (h0 : l ≠ []) (h7 : l.length ≤ 7) :
    chunkGo fuel l = [l] := by
  cases fuel <;> simp [chunkGo, h0, h7]

theorem chunkGo_step (fuel : ℕ) (l : List α) (h7 : 7 < l.length) :
    chunkGo (fuel + 1) l = l.take 7 :: chunkGo fuel (l.drop 4) := by
  have h0 : ¬l.isEmpty = true := by
    simp only [List.isEmpty_iff]
    intro h
    simp [h] at h7
  have h7' : ¬l.length ≤ 7 := by omega
  simp [chunkGo, h0, h7']

theorem chunkGo_congr (f1 : ℕ) (f2 : ℕ) (l : List α)
    (h1 : l.length ≤ f1) (h2 : l.length ≤ f2) : chunkGo f1 l = chunkGo f2 l := by
  induction f1 generalizing f2 l with
  | zero =>
    have h0 : l = [] := List.length_eq_zero.mp (by omega)
    simp [h0, chunkGo_nil]
  | succ n ih =>
    by_cases h0 : l = []
    · simp [h0, chunkGo_nil]
    · by_cases h7 : l.length ≤ 7
      · rw [chunkGo_small _ l h0 h7, chunkGo_small _ l h0 h7]
      · cases f2 with
        | zero =>
          exact absurd (List.length_eq_zero.mp (by omega)) h0
        | succ m =>
          rw [chunkGo_step n l (by omega), chunkGo_step m l (by omega)]
          congr 1
          exact ih m (l.drop 4) (by simp; omega) (by simp; omega)

theorem chunkWindows_nil : chunkWindows ([] : List α) = [] := rfl

theorem chunkWindows_small (l : List α) (h0 : l ≠ []) (h7 : l.length ≤ 7) :
    chunkWindows l = [l] := chunkGo_small _ l h0 h7

theorem chunkWindows_step (l : List α) (h7 : 7 < l.length) :
    chunkWindows l = l.take 7 :: chunkWindows (l.drop 4) := by
  unfold chunkWindows
  obtain ⟨n, hn⟩ : ∃ n, l.length = n + 1 := ⟨l.length - 1, by omega⟩
  calc chunkGo l.length l = chunkGo (n + 1) l := by rw [hn]
    _ = l.take 7 :: chunkGo n (l.drop 4) := chunkGo_step n l h7
    _ = l.take 7 :: chunkGo (l.drop 4).length (l.drop 4) := by
        congr 1
        exact chunkGo_congr n _ _ (by simp; omega) le_rfl

theorem chunkGo_length (fuel : ℕ) (l : List α) (hf : l.length ≤ fuel) :
    (chunkGo fuel l).length =
      if l.length = 0 then 0
      else if l.length ≤ 7 then 1
      else (l.length - 7 + 3) / 4 + 1 := by
  induction fuel generalizing l with
  | zero =>
    have h0 : l = [] := List.length_eq_zero.mp (by omega)
    simp [h0, chunkGo_nil]
  | succ n ih =>
    by_cases h0 : l = []
    · simp [h0, chunkGo_nil]
    · have hpos : 0 < l.length := List.length_pos.mpr h0
      by_cases h7 : l.length ≤ 7
      · rw [chunkGo_small _ l h0 h7]
        simp only [List.length_singleton]
        rw [if_neg (by omega), if_pos h7]
      · rw [chunkGo_step n l (by omega)]
        have hih := ih (l.drop 4) (by simp; omega)
        simp only [List.length_drop] at hih
        simp only [List.length_cons, hih]
        split_ifs with e1 e2 <;> omega

/-- The window count at document level, phrased over `chunkWindows`. -/
theorem chunkWindows_length (l : List α) :
    (chunkWindows l).length =
      if l.length = 0 then 0
      else if l.length ≤ 7 then 1
      else (l.length - 7 + 3) / 4 + 1 :=
  chunkGo_length l.length l le_rfl

theorem chunkGo_head (fuel : ℕ) (l : List α) (hf : l.length ≤ fuel) (h0 : l ≠ []) :
    (chunkGo fuel l).head? = some (l.take 7) := by
  cases fuel with
  | zero => exact absurd (List.length_eq_zero.mp (by omega)) h0
  | succ n =>
    by_cases h7 : l.length ≤ 7
    · rw [chunkGo_small _ l h0 h7]
      simp [List.take_of_length_le h7]
    · rw [chunkGo_step n l (by omega)]
      rfl

/-- Adjacent windows overlap by exactly the configured 3 sentences: the
last 3 sentences of one window are the first 3 of the next. -/
theorem chunkGo_chain (fuel : ℕ) (l : List α) (hf : l.length ≤ fuel) :
    List.Chain' (fun a b => a.drop 4 = b.take 3 ∧ (a.drop 4).length = 3)
      (chunkGo fuel l) := by
  induction fuel generalizing l with
  | zero =>
    have h0 : l = [] := List.length_eq_zero.mp (by omega)
    simp [h0, chunkGo_nil]
  | succ n ih =>
    by_cases h0 : l = []
    · simp [h0, chunkGo_nil]
    · by_cases h7 : l.length ≤ 7
      · rw [chunkGo_small _ l h0 h7]
        exact List.chain'_singleton l
      · rw [chunkGo_step n l (by omega)]
        rw [List.chain'_cons']
        refine ⟨?_, ih (l.drop 4) (by simp; omega)⟩
        intro b hb
        have hd0 : l.drop 4 ≠ [] := by
          intro h
          have := congrArg List.length h
          simp at this
          omega
        rw [chunkGo_head n (l.drop 4) (by simp; omega) hd0] at hb
        obtain rfl : b = (l.drop 4).take 7 := by injection hb with h; exact h.symm
        constructor
        · rw [List.drop_take, List.take_take]
          norm_num
        · simp
          omega

theorem chunkWindows_chain (l : List α) :
    List.Chain' (fun a b => a.drop 4 = b.take 3 ∧ (a.drop 4).length = 3)
      (chunkWindows l) :=
  chunkGo_chain l.length l le_rfl

end RagModel

namespace RagModel

/-- A concrete ten-sentence document used to instantiate the chunking
scenarios. -/
def docTen : String := "a. b. c. d. e. f. g. h. i. j."

/-- C3: with `window_size = 7` and `overlap = 3` (step 4), chunking an empty
document yields zero chunks; a document of `1 ≤ N ≤ 7` sentences yields
exactly one chunk covering all sentences; a document of `N > 7` sentences
yields exactly `ceil((N - 7) / 4) + 1 = (N - 7 + 3) / 4 + 1` chunks; and a
ten-sentence document yields exactly the two chunks covering sentence
ranges 0-6 and 4-9. -/
theorem chunk_count_formula (text : String) (N : ℕ)
    (hN : (splitSentences text).length = N) :
    (text = "" → chunkText text = [])
  ∧ (N = 0 → chunkText text = [])
  ∧ (1 ≤ N → N ≤ 7 → chunkText text = [splitSentences text])
  ∧ (7 < N → (chunkText text).length = (N - 7 + 3) / 4 + 1)
  ∧ (N = 10 →
      chunkText text = [(splitSentences text).take 7, (splitSentences text).drop 4]) := by
  refine ⟨?_, ?_, ?_, ?_, ?_⟩
  · intro h
    subst h
    rfl
  · intro h
    have h0 : splitSentences text = [] := List.length_eq_zero.mp (by omega)
    simp [chunkText, h0, chunkWindows_nil]
  · intro h1 h7
    have hne : splitSentences text ≠ [] := by
      intro h
      rw [h] at hN
      simp at hN
      omega
    exact chunkWindows_small _ hne (by omega)
  · intro h7
    rw [chunkText, chunkWindows_length, hN, if_neg (by omega), if_neg (by omega)]
  · intro h10
    rw [chunkText, chunkWindows_step _ (by omega)]
    have hd : (splitSentences text).drop 4 ≠ [] := by
      intro h
      have := congrArg List.length h
      simp at this
      omega
    rw [chunkWindows_small _ hd (by simp; omega)]

/-- C3 witness: the concrete ten-sentence document has ten sentences and
chunks into exactly the windows 0-6 and 4-9. -/
theorem chunk_count_witness :
    (splitSentences docTen).length = 10
  ∧ chunkText docTen = [(splitSentences docTen).take 7, (splitSentences docTen).drop 4]
  ∧ (chunkText docTen).length = 2 :=
  ⟨by decide, (chunk_count_formula docTen 10 (by decide)).2.2.2.2 rfl, by decide⟩

/-- C6: for a document with more sentences than the window size, any two
adjacent chunks share exactly 3 sentences: the last 3 sentences of each
chunk are precisely the first 3 of its successor, including the pair formed
by the truncated final window and its predecessor. -/
theorem chunk_overlap_shared (text : String) (_h7 : 7 < (splitSentences text).length)
    (i : ℕ) (hi : i + 1 < (chunkText text).length) :
    ((chunkText text).get ⟨i, by omega⟩).drop 4
        = ((chunkText text).get ⟨i + 1, hi⟩).take 3
  ∧ (((chunkText text).get ⟨i, by omega⟩).drop 4).length = 3 := by
  have hi' : i + 1 < (chunkWindows (splitSentences text)).length := by
    simpa only [chunkText] using hi
  exact List.chain'_iff_get.mp (chunkWindows_chain (splitSentences text)) i (by omega)

/-- C6 witness: on the concrete ten-sentence document, the first chunk's
last 3 sentences are the second chunk's first 3. -/
theorem chunk_overlap_witness :
    7 < (splitSentences docTen).length
  ∧ 0 + 1 < (chunkText docTen).length
  ∧ (((chunkText docTen).get ⟨0, by decide⟩).drop 4
        = ((chunkText docTen).get ⟨1, by decide⟩).take 3
     ∧ (((chunkText docTen).get ⟨0, by decide⟩).drop 4).length = 3) :=
  ⟨by decide, by decide, chunk_overlap_shared docTen (by decide) 0 (by decide)⟩

end RagModel

namespace RagModel

/-- Concrete scenario inputs: a general question of two words, and two
chunks with the same text (hence the same keyword overlap of one word out
of two). -/
def qGeneral : String := "alpha beta"

def summaryChunkEx : Chunk :=
  ⟨"c-sum", "alpha gamma.", .summary_primary, false, none, none⟩

def transcriptChunkEx : Chunk :=
  ⟨"c-tr", "alpha gamma.", .transcript_window, false, none, none⟩

/-- C4: with identical raw semantic and keyword inputs (same cosine
distance, same chunk text) under the same question, the summary boost alone
multiplies the final combined score by exactly 1.15, the technical boost
alone (under a technical question) by exactly 1.10, and both together by
exactly 1.265; and in the concrete scenario (semantic 0.8, keyword 0.5,
general question) the summary-sourced candidate scores 0.782, the
transcript-sourced one 0.68, and the summary candidate ranks first. -/
theorem boost_multipliers :
    (∀ (technical : Bool) (q : String) (c1 c2 : Chunk) (d : ℚ),
        c1.text = c2.text → c1.is_technical = c2.is_technical →
        isSummarySource c1.source_type = true →
        isSummarySource c2.source_type = false →
        (scoreChunk technical q c1 d).combined_score
          = 1.15 * (scoreChunk technical q c2 d).combined_score)
  ∧ (∀ (q : String) (c1 c2 : Chunk) (d : ℚ),
        c1.text = c2.text →
        isSummarySource c1.source_type = isSummarySource c2.source_type →
        c1.is_technical = true → c2.is_technical = false →
        (scoreChunk true q c1 d).combined_score
          = 1.1 * (scoreChunk true q c2 d).combined_score)
  ∧ (∀ (q : String) (c1 c2 : Chunk) (d : ℚ),
        c1.text = c2.text →
        isSummarySource c1.source_type = true → c1.is_technical = true →
        isSummarySource c2.source_type = false → c2.is_technical = false →
        (scoreChunk true q c1 d).combined_score
          = 1.265 * (scoreChunk true q c2 d).combined_score)
  ∧ (scoreChunk false qGeneral summaryChunkEx 0.2).semantic_score = 0.8
  ∧ (scoreChunk false qGeneral summaryChunkEx 0.2).keyword_score = 0.5
  ∧ (scoreChunk false qGeneral summaryChunkEx 0.2).combined_score = 0.782
  ∧ (scoreChunk false qGeneral transcriptChunkEx 0.2).combined_score = 0.68
  ∧ selectChunks [scoreChunk false qGeneral transcriptChunkEx 0.2,
        scoreChunk false qGeneral summaryChunkEx 0.2]
      = [scoreChunk false qGeneral summaryChunkEx 0.2,
         scoreChunk false qGeneral transcriptChunkEx 0.2] := by
  have hwords :
      ((wordsOf qGeneral).filter (fun w => decide (w ∈ wordsOf "alpha gamma."))).length
        = 1 := by decide
  have hden : max 1 (wordsOf qGeneral).length = 2 := by decide
  have hsemEx : clamp01 (1 - (0.2 : ℚ)) = 0.8 := by
    rw [clamp01]
    norm_num
  have hkwEx :
      (((wordsOf qGeneral).filter (fun w => decide (w ∈ wordsOf "alpha gamma."))).length : ℚ) /
          ((max 1 (wordsOf qGeneral).length : ℕ) : ℚ) = 0.5 := by
    rw [hwords, hden]
    norm_num
  have hsum : (scoreChunk false qGeneral summaryChunkEx 0.2).combined_score = 0.782 := by
    simp only [scoreChunk, summaryChunkEx, isSummarySource, Bool.false_and,
      if_false, if_true, Bool.false_eq_true, hsemEx, hkwEx]
    norm_num
  have htr : (scoreChunk false qGeneral transcriptChunkEx 0.2).combined_score = 0.68 := by
    simp only [scoreChunk, transcriptChunkEx, isSummarySource, Bool.false_and,
      if_false, if_true, Bool.false_eq_true, hsemEx, hkwEx]
    norm_num
  refine ⟨?_, ?_, ?_, ?_, ?_, hsum, htr, ?_⟩
  · intro technical q c1 c2 d htext htech hs1 hs2
    simp only [scoreChunk, htext, htech, hs1, hs2, if_true, if_false]
    by_cases hb : (technical && c2.is_technical) = true
    · simp only [hb, if_true, Bool.false_eq_true, if_false]
      ring
    · simp only [Bool.not_eq_true] at hb
      simp only [hb, Bool.false_eq_true, if_false]
      ring
  · intro q c1 c2 d htext hsums h1 h2
    simp only [scoreChunk, htext, h1, h2, Bool.and_true, Bool.and_false,
      Bool.true_and, if_true, if_false, Bool.false_eq_true, hsums]
    by_cases hb : isSummarySource c2.source_type = true
    · simp only [hb, if_true]
      ring
    · simp only [Bool.not_eq_true] at hb
      simp only [hb, Bool.false_eq_true, if_false]
      ring
  · intro q c1 c2 d htext hs1 h1 hs2 h2
    simp only [scoreChunk, htext, hs1, hs2, h1, h2, Bool.and_true, Bool.and_false,
      Bool.true_and, if_true, if_false, Bool.false_eq_true]
    ring
  · simp only [scoreChunk, summaryChunkEx, hsemEx]
  · simp only [scoreChunk, summaryChunkEx, hkwEx]
  · simp only [selectChunks, sortByDesc, List.foldr, insDesc, hsum, htr]
    rw [if_neg (by norm_num)]
    simp only [selectGo, summaryChunkEx, transcriptChunkEx, isSummarySource]
    norm_num [selectGo]

end RagModel

namespace RagModel

/-- C4 witness: the 1.15 relation instantiated at the two concrete scenario
chunks, with every hypothesis discharged on concrete data. -/
theorem boost_multipliers_witness :
    summaryChunkEx.text = transcriptChunkEx.text
  ∧ summaryChunkEx.is_technical = transcriptChunkEx.is_technical
  ∧ isSummarySource summaryChunkEx.source_type = true
  ∧ isSummarySource transcriptChunkEx.source_type = false
  ∧ (scoreChunk false qGeneral summaryChunkEx 0.2).combined_score
      = 1.15 * (scoreChunk false qGeneral transcriptChunkEx 0.2).combined_score :=
  ⟨rfl, rfl, rfl, rfl,
    boost_multipliers.1 false qGeneral summaryChunkEx transcriptChunkEx 0.2 rfl rfl rfl rfl⟩

/-- C9: a session that indexed successfully but holds zero chunks is a
valid state: a query against it does not fail — it returns an Answer with
an empty supporting-chunk list, and the synthesis request carries no
retrieved context in either tier. -/
theorem zero_chunk_query_ok (store : List (String × List Chunk)) (dist : Chunk → ℚ)
    (synth : SynthRequest → String) (sid q : String)
    (hs : lookupSession store sid = some [])
    (hq : (q.data.all (fun c => c.isWhitespace)) = false) :
    ∃ ans req, ragQuery store dist synth sid q = .ok (ans, req)
      ∧ ans.supporting_chunks = []
      ∧ req.overview = [] ∧ req.detail = [] := by
  refine ⟨⟨synth ⟨q, classify q, [], []⟩, [], 0, false⟩, ⟨q, classify q, [], []⟩, ?_, rfl, rfl, rfl⟩
  simp [ragQuery, hq, hs, admitCandidates, searchIndex, sortByDesc, selectChunks,
    selectGo, assemble]

/-- C9 witness: the zero-chunk query at a concrete store and question. -/
theorem zero_chunk_query_witness :
    lookupSession [("s", ([] : List Chunk))] "s" = some []
  ∧ ("hello".data.all (fun c => c.isWhitespace)) = false
  ∧ ∃ ans req,
      ragQuery [("s", [])] (fun _ => 0) (fun _ => "answer") "s" "hello" = .ok (ans, req)
      ∧ ans.supporting_chunks = []
      ∧ req.overview = [] ∧ req.detail = [] :=
  ⟨by decide, by decide,
    zero_chunk_query_ok [("s", [])] (fun _ => 0) (fun _ => "answer") "s" "hello"
      (by decide) (by decide)⟩

end RagModel

namespace Frontend

/-- C10: in `RAGComponent.handleIndex`, when the summary-generation request
returns a non-ok response or throws, the index-build request is still sent
with the transcript alone (both summary fields null), no error is surfaced
for the summary failure, and on index success the component reaches the
indexed state with `indexing` cleared. -/
theorem summary_failure_transcript_only (t : String) (segs : Option (List Segment))
    (st : RAGState) (sumOut : SummaryOutcome)
    (h : sumOut = .httpError ∨ sumOut = .threw) :
    (handleIndex t segs sumOut .ok st).2.summary_en = none
  ∧ (handleIndex t segs sumOut .ok st).2.summary_mm = none
  ∧ (handleIndex t segs sumOut .ok st).2.transcript_text = t
  ∧ (handleIndex t segs sumOut .ok st).1.indexed = true
  ∧ (handleIndex t segs sumOut .ok st).1.error = ""
  ∧ (handleIndex t segs sumOut .ok st).1.indexing = false := by
  rcases h with h | h <;> subst h <;> simp [handleIndex]

/-- C10 witness: a concrete run with a failed summary request and a
successful index request. -/
theorem summary_failure_witness :
    (handleIndex "t" none .httpError .ok ⟨false, false, ""⟩).2.summary_en = none
  ∧ (handleIndex "t" none .httpError .ok ⟨false, false, ""⟩).2.summary_mm = none
  ∧ (handleIndex "t" none .httpError .ok ⟨false, false, ""⟩).2.transcript_text = "t"
  ∧ (handleIndex "t" none .httpError .ok ⟨false, false, ""⟩).1.indexed = true
  ∧ (handleIndex "t" none .httpError .ok ⟨false, false, ""⟩).1.error = ""
  ∧ (handleIndex "t" none .httpError .ok ⟨false, false, ""⟩).1.indexing = false :=
  summary_failure_transcript_only "t" none ⟨false, false, ""⟩ .httpError (Or.inl rfl)

/-- C8 counterexample: the index-build request the frontend actually sends
has no field named `summary_primary` or `summary_secondary`; its summary
fields are `summary_en` and `summary_mm`. -/
theorem summary_field_names_counterexample :
    "summary_primary" ∉ bodyKeys (handleIndex "t" none .httpError .ok ⟨false, false, ""⟩).2
  ∧ "summary_secondary" ∉ bodyKeys (handleIndex "t" none .httpError .ok ⟨false, false, ""⟩).2
  ∧ "summary_en" ∈ bodyKeys (handleIndex "t" none .httpError .ok ⟨false, false, ""⟩).2
  ∧ "summary_mm" ∈ bodyKeys (handleIndex "t" none .httpError .ok ⟨false, false, ""⟩).2 := by
  decide

/-- C8 as amended: every index-build request the frontend sends has exactly
the keys `transcript_text`, optionally `segments` (only when some segment
carries a non-null timestamp), `summary_en` and `summary_mm` — the two
optional summary fields are named `summary_en` and `summary_mm`. -/
theorem index_request_shape (t : String) (segs : Option (List Segment))
    (sumOut : SummaryOutcome) (idxOut : IndexOutcome) (st : RAGState) :
    bodyKeys (handleIndex t segs sumOut idxOut st).2
      = ["transcript_text"]
          ++ (if hasValidTimestamps segs then ["segments"] else [])
          ++ ["summary_en", "summary_mm"] := by
  by_cases hv : hasValidTimestamps segs = true
  · cases segs with
    | none => simp [hasValidTimestamps] at hv
    | some l => simp [handleIndex, bodyKeys, hv]
  · simp only [Bool.not_eq_true] at hv
    simp [handleIndex, bodyKeys, hv]

end Frontend
